import Mathlib

/-!
Verification of the Pareto² study-analysis engine of lang_ident_classifier
(src/improved_study_analysis.py, src/study_analysis.py,
src/improved_study_driver_analysis.py) against its design specification.

Modelling conventions (shallow embedding):
* Hyperparameter values are kept in the form the scripts actually compare
  them: the str() rendering of the sampled value.  Both convergence checks
  compare only str(t.params.get(p)), and the hierarchy detector uses only
  key presence, so this loses nothing the analysed code looks at.
* Python float arithmetic is modelled by exact rational arithmetic (ℚ);
  int(x * 0.25) for a nonnegative int x is exactly Nat division x / 4
  because 0.25 is a power of two and truncation towards zero is floor.
* Python's sorted(..) is a stable sort; sorted(xs, key=k, reverse=True)
  equals insertion sort by the relation "k b ≤ k a" (earlier elements are
  inserted in front of later key-equal ones), which is what
  List.insertionSort with that relation computes.
* Python's string comparison is lexicographic on code points, embedded
  below as chars_le / chars_lt on String.data.
-/

set_option maxRecDepth 10000

namespace Pareto

/-- One Optuna trial as the analysis scripts consume it: its number, its
params dict (hyperparameter name ↦ str() rendering of the sampled value;
a missing key means the parameter was not sampled in this trial), and its
objective value.  Only COMPLETE trials are modelled, so value is total. -/
structure Trial where
  number : ℕ
  params : List (String × String)
  value : ℚ
deriving DecidableEq, Repr

/-- Optimization direction of a study (optuna.study.StudyDirection). -/
inductive Direction
  | MAXIMIZE
  | MINIMIZE
deriving DecidableEq, Repr

/-- Hierarchy label of one hyperparameter.  get_hierarchy_map produces the
strings "[dim]Global[/dim]" (improved_study_analysis.py line 16) and
"Sub of [bold]{parent}[/bold]" (line 28); only the tag and the parent name
carry information, so they are modelled as this inductive. -/
inductive HierarchyEntry
  | Global
  | SubOf (parent : String)
deriving DecidableEq, Repr

/-- Lexicographic (code-point) non-strict comparison of character lists,
mirroring Python's string "less or equal". -/
def chars_le : List Char → List Char → Bool
  | [], _ => true
  | _ :: _, [] => false
  | a :: as, b :: bs => if a < b then true else if b < a then false else chars_le as bs

/-- Lexicographic (code-point) strict comparison of character lists,
mirroring Python's string "less than". -/
def chars_lt : List Char → List Char → Bool
  | [], [] => false
  | [], _ :: _ => true
  | _ :: _, [] => false
  | a :: as, b :: bs => if a < b then true else if b < a then false else chars_lt as bs

/-- Python's s1 <= s2 on strings: lexicographic by code point. -/
def py_str_le (a b : String) : Prop := chars_le a.data b.data = true

/-- Python's s1 < s2 on strings: lexicographic by code point. -/
def py_str_lt (a b : String) : Prop := chars_lt a.data b.data = true

instance : DecidableRel py_str_le :=
  fun a b => inferInstanceAs (Decidable (chars_le a.data b.data = true))

instance : DecidableRel py_str_lt :=
  fun a b => inferInstanceAs (Decidable (chars_lt a.data b.data = true))

theorem chars_le_refl : ∀ as : List Char, chars_le as as = true
  | [] => rfl
  | a :: as => by simp [chars_le, lt_irrefl, chars_le_refl as]

theorem chars_le_total : ∀ as bs : List Char, chars_le as bs = true ∨ chars_le bs as = true
  | [], _ => Or.inl rfl
  | _ :: _, [] => Or.inr rfl
  | a :: as, b :: bs => by
    rcases lt_trichotomy a b with h | h | h
    · exact Or.inl (by simp [chars_le, h])
    · subst h
      rcases chars_le_total as bs with h' | h'
      · exact Or.inl (by simp [chars_le, lt_irrefl, h'])
      · exact Or.inr (by simp [chars_le, lt_irrefl, h'])
    · exact Or.inr (by simp [chars_le, h])

theorem chars_le_trans :
    ∀ {as bs cs : List Char}, chars_le as bs = true → chars_le bs cs = true →
      chars_le as cs = true
  | [], _, _, _, _ => rfl
  | _ :: _, [], _, h1, _ => by simp [chars_le] at h1
  | _ :: _, _ :: _, [], _, h2 => by simp [chars_le] at h2
  | a :: as, b :: bs, c :: cs, h1, h2 => by
    rcases lt_trichotomy a b with hab | hab | hab
    · rcases lt_trichotomy b c with hbc | hbc | hbc
      · simp [chars_le, lt_trans hab hbc]
      · subst hbc; simp [chars_le, hab]
      · simp [chars_le, hbc, asymm hbc] at h2
    · subst hab
      rcases lt_trichotomy a c with hac | hac | hac
      · simp [chars_le, hac]
      · subst hac
        have e : ∀ xs ys : List Char, chars_le (a :: xs) (a :: ys) = chars_le xs ys := by
          intro xs ys; simp [chars_le, lt_irrefl]
        rw [e] at h1 h2 ⊢
        exact chars_le_trans h1 h2
      · simp [chars_le, hac, asymm hac] at h2
    · simp [chars_le, hab, asymm hab] at h1

instance : IsTotal String py_str_le := ⟨fun a b => chars_le_total a.data b.data⟩

instance : IsTrans String py_str_le := ⟨fun _ _ _ h1 h2 => chars_le_trans h1 h2⟩

theorem py_str_le_refl (a : String) : py_str_le a a := chars_le_refl a.data

/-- Descending-by-value comparison used by both scripts in
sorted(completed, key=lambda t: t.value, reverse=True). -/
def val_desc (a b : Trial) : Prop := b.value ≤ a.value

instance : DecidableRel val_desc := fun a b => inferInstanceAs (Decidable (b.value ≤ a.value))

instance : IsTotal Trial val_desc := ⟨fun a b => le_total b.value a.value⟩

instance : IsTrans Trial val_desc := ⟨fun _ _ _ h1 h2 => le_trans h2 h1⟩

/-- Python's importance_scores.get(x, 0): look a name up in the importance
mapping, defaulting to score 0 for a missing name. -/
def importance_get (imp : List (String × ℚ)) (x : String) : ℚ := (List.lookup x imp).getD 0

/-- Descending comparison by the tuple key (importance_scores.get(x, 0), x)
under reverse=True (improved_study_analysis.py line 67): b comes no earlier
than a exactly when b's key is lexicographically at most a's key. -/
def imp_desc (imp : List (String × ℚ)) (a b : String) : Prop :=
  importance_get imp b < importance_get imp a ∨
    (importance_get imp b = importance_get imp a ∧ py_str_le b a)

instance (imp : List (String × ℚ)) : DecidableRel (imp_desc imp) :=
  fun a b =>
    inferInstanceAs (Decidable (importance_get imp b < importance_get imp a ∨
      (importance_get imp b = importance_get imp a ∧ py_str_le b a)))

instance (imp : List (String × ℚ)) : IsTotal String (imp_desc imp) := by
  refine ⟨fun a b => ?_⟩
  rcases lt_trichotomy (importance_get imp a) (importance_get imp b) with h | h | h
  · exact Or.inr (Or.inl h)
  · rcases chars_le_total a.data b.data with h' | h'
    · exact Or.inr (Or.inr ⟨h, h'⟩)
    · exact Or.inl (Or.inr ⟨h.symm, h'⟩)
  · exact Or.inl (Or.inl h)

instance (imp : List (String × ℚ)) : IsTrans String (imp_desc imp) := by
  refine ⟨fun a b c h1 h2 => ?_⟩
  rcases h1 with h1 | ⟨h1e, h1s⟩
  · rcases h2 with h2 | ⟨h2e, _⟩
    · exact Or.inl (lt_trans h2 h1)
    · exact Or.inl (h2e ▸ h1)
  · rcases h2 with h2 | ⟨h2e, h2s⟩
    · exact Or.inl (h1e ▸ h2)
    · exact Or.inr ⟨h2e.trans h1e, chars_le_trans h2s h1s⟩

/-- Population mean np.mean(values) = (sum values) / (number of values), in
exact rational arithmetic.  For the empty list Lean's convention sum/0 = 0
coincides with the explicit guard "np.mean(values) if values else 0" of
study_analysis.py line 26. -/
def np_mean (values : List ℚ) : ℚ := values.sum / values.length

/-- Python's "p in t.params" membership test. -/
def has_param (t : Trial) (p : String) : Bool := (List.lookup p t.params).isSome

/-- Python's str(t.params.get(p)): the stored str() rendering when the key is
present, and str(None) = "None" when it is absent. -/
def str_get (t : Trial) (p : String) : String := (List.lookup p t.params).getD "None"

/-- Elite-trial count n_elite_trials = max(3, int(len(completed) * 0.25))
(improved_study_analysis.py line 63, study_analysis.py line 43). -/
def n_elite_trials (n : ℕ) : ℕ := max 3 (n / 4)

/-- Both scripts' sorted(completed, key=lambda t: t.value, reverse=True):
a stable descending sort of the completed trials by objective value
(improved_study_analysis.py line 64, study_analysis.py line 44). -/
def sorted_by_value_desc (completed : List Trial) : List Trial :=
  List.insertionSort val_desc completed

/-- Elite trial selection of both scripts: the descending-by-value sort
truncated by the slice [:n_elite_trials]. -/
def elite_trials (completed : List Trial) : List Trial :=
  (sorted_by_value_desc completed).take (n_elite_trials completed.length)

/-- Set of completed-trial identifiers, set(t.number for t in completed). -/
def trial_ids (completed : List Trial) : Finset ℕ := (completed.map Trial.number).toFinset

namespace ImprovedStudyAnalysis

/-- All hyperparameter names occurring in any completed trial,
sorted(list(set().union(*(t.params.keys() for t in completed))))
(improved_study_analysis.py lines 15 and 57). -/
def all_param_names (completed : List Trial) : List String :=
  List.insertionSort py_str_le ((completed.flatMap fun t => t.params.map Prod.fst).dedup)

/-- Presence mask of a hyperparameter,
set(t.number for t in completed_trials if p in t.params)
(improved_study_analysis.py line 17). -/
def presence (completed : List Trial) (p : String) : Finset ℕ :=
  ((completed.filter fun t => has_param t p).map Trial.number).toFinset

/-- Inner-loop test of get_hierarchy_map (improved_study_analysis.py
lines 25-27): parent differs from child, child's mask is a subset of
parent's, and parent's mask is strictly larger. -/
def qualifies (completed : List Trial) (child parent : String) : Bool :=
  decide (parent ≠ child) &&
    decide (presence completed child ⊆ presence completed parent) &&
    decide ((presence completed child).card < (presence completed parent).card)

/-- Hierarchy label get_hierarchy_map assigns to one name
(improved_study_analysis.py lines 16-29, identical in
improved_study_driver_analysis.py lines 15-28): every name starts Global;
a name whose mask covers all completed trials is skipped; otherwise the
first name in the lexicographically sorted all_param_names passing
qualifies overwrites the label with SubOf, and when none passes the label
stays Global. -/
def hierarchy_entry (completed : List Trial) (child : String) : HierarchyEntry :=
  if (presence completed child).card = completed.length then .Global
  else
    match (all_param_names completed).find? (qualifies completed child) with
    | some parent => .SubOf parent
    | none => .Global

/-- The full hierarchy mapping returned by get_hierarchy_map: one entry per
name of all_param_names. -/
def get_hierarchy_map (completed : List Trial) : List (String × HierarchyEntry) :=
  (all_param_names completed).map fun p => (p, hierarchy_entry completed p)

/-- Volatility guard of improved_study_analysis.py line 51:
volatility = (std_acc / mean_acc) if mean_acc > 0 else 0. -/
def volatility (mean std : ℚ) : ℚ := if 0 < mean then std / mean else 0

/-- Multiplier inlined in improved_study_analysis.py line 62:
10 if volatility > 0.1 else 5. -/
def multiplier (vol : ℚ) : ℕ := if 1 / 10 < vol then 10 else 5

/-- Dynamic trial target dynamic_target = n_params * (10 if volatility > 0.1
else 5) (improved_study_analysis.py line 62). -/
def dynamic_target (n_params : ℕ) (vol : ℚ) : ℕ := n_params * multiplier vol

/-- Remaining-trials readout max(0, int(dynamic_target - len(completed)))
(improved_study_analysis.py line 91), on Python's unbounded ints. -/
def remaining_trials (n_params : ℕ) (vol : ℚ) (n_completed : ℕ) : ℤ :=
  max 0 ((dynamic_target n_params vol : ℤ) - (n_completed : ℤ))

/-- Elite-parameter count n_top_params = max(2, int(n_params * 0.25))
(improved_study_analysis.py line 68, study_analysis.py line 39). -/
def n_top_params (n : ℕ) : ℕ := max 2 (n / 4)

/-- Parameter ranking of improved_study_analysis.py line 67:
sorted(all_param_names, key=lambda x: (importance_scores.get(x, 0), x),
reverse=True). -/
def sorted_params (imp : List (String × ℚ)) (names : List String) : List String :=
  List.insertionSort (imp_desc imp) names

/-- Elite parameter list top_params_list = sorted_params[:n_top_params]
(improved_study_analysis.py line 69). -/
def top_params_list (imp : List (String × ℚ)) (names : List String) : List String :=
  (sorted_params imp names).take (n_top_params names.length)

/-- Stringified values of one parameter over the elite trials where it is
present, [str(t.params.get(p)) for t in elite_trials if p in t.params]
(improved_study_analysis.py line 74). -/
def elite_vals (elite : List Trial) (p : String) : List String :=
  (elite.filter fun t => has_param t p).map fun t => str_get t p

/-- Stability test of improved_study_analysis.py line 75:
vals and len(set(vals)) == 1. -/
def is_stable (elite : List Trial) (p : String) : Bool :=
  !(elite_vals elite p).isEmpty && (elite_vals elite p).dedup.length == 1

/-- Convergence count of improved_study_analysis.py lines 72-76: the number
of elite parameters passing is_stable over the elite trials. -/
def convergence_count (elite : List Trial) (tops : List String) : ℕ :=
  tops.countP fun p => is_stable elite p

/-- Convergence ratio convergence_count / n_top_params computed in
improved_study_analysis.py lines 79 and 83; the divisor is the number
n_top_params, not the length of top_params_list. -/
def convergence_ratio (imp : List (String × ℚ)) (completed : List Trial) : ℚ :=
  (convergence_count (elite_trials completed)
      (top_params_list imp (all_param_names completed)) : ℚ) /
    (n_top_params (all_param_names completed).length : ℚ)

/-- Convergence signal of improved_study_analysis.py line 83:
'HIGH' if (convergence_count / n_top_params) >= 0.66 else 'LOW'. -/
def convergence_status (imp : List (String × ℚ)) (completed : List Trial) : String :=
  if (66 : ℚ) / 100 ≤ convergence_ratio imp completed then "HIGH" else "LOW"

end ImprovedStudyAnalysis

namespace StudyAnalysis

/-- Volatility guard of study_analysis.py line 30:
volatility = (std_acc / mean_acc) if mean_acc > 0 else 1.0. -/
def volatility (mean std : ℚ) : ℚ := if 0 < mean then std / mean else 1

/-- dynamic_multiplier = 10 if volatility > 0.1 else 5
(study_analysis.py line 31). -/
def dynamic_multiplier (vol : ℚ) : ℕ := if 1 / 10 < vol then 10 else 5

/-- dynamic_target = n_params * dynamic_multiplier (study_analysis.py
line 32). -/
def dynamic_target (n_params : ℕ) (vol : ℚ) : ℕ := n_params * dynamic_multiplier vol

/-- trials_needed = max(0, dynamic_target - n_completed) (study_analysis.py
line 33), on Python's unbounded ints. -/
def trials_needed (n_params : ℕ) (vol : ℚ) (n_completed : ℕ) : ℤ :=
  max 0 ((dynamic_target n_params vol : ℤ) - (n_completed : ℤ))

/-- Stringified values of one parameter over every elite trial,
[str(t.params.get(p)) for t in elite_trials] (study_analysis.py line 50):
unlike the improved script there is no presence filter, so an absent
parameter contributes the string "None". -/
def vals_in_elite (elite : List Trial) (p : String) : List String :=
  elite.map fun t => str_get t p

/-- Stability test of study_analysis.py line 51:
len(set(values_in_elite)) == 1. -/
def stable (elite : List Trial) (p : String) : Bool :=
  (vals_in_elite elite p).dedup.length == 1

/-- Convergence count of study_analysis.py lines 46-52: parameters of the
top list passing the agreement check, counted only when the elite group has
at least 3 trials. -/
def convergence_count (elite : List Trial) (tops : List String) : ℕ :=
  if 3 ≤ elite.length then tops.countP fun p => stable elite p else 0

/-- Convergence ratio convergence_ratio = convergence_count / n_top_params
(study_analysis.py line 55). -/
def convergence_ratio (elite : List Trial) (tops : List String) (n_top : ℕ) : ℚ :=
  (convergence_count elite tops : ℚ) / (n_top : ℚ)

end StudyAnalysis

/-- Following the spec's words (§4.2): the comparison putting the optimal
value first under the study's direction — largest value first under
MAXIMIZE, smallest value first under MINIMIZE. -/
def optimal_first : Direction → Trial → Trial → Prop
  | .MAXIMIZE => val_desc
  | .MINIMIZE => fun a b => a.value ≤ b.value

instance optimal_first_dec : (d : Direction) → DecidableRel (optimal_first d)
  | .MAXIMIZE => inferInstanceAs (DecidableRel val_desc)
  | .MINIMIZE => fun a b => inferInstanceAs (Decidable (a.value ≤ b.value))

/-- Following the spec's words (§4.2): completed trials sorted by value
optimal-first under the direction (stable, like Python's sorted). -/
def spec_elite_sorted (d : Direction) (completed : List Trial) : List Trial :=
  List.insertionSort (optimal_first d) completed

/-- Synthetic study of n trials with distinct numbers, no parameters and
value i for trial i. -/
def mk_trials (n : ℕ) : List Trial := (List.range n).map fun i => ⟨i, [], (i : ℚ)⟩

/-- Synthetic study of spec §8.2: T0 has A and B, T1 and T2 have only A. -/
def t012 : List Trial :=
  [⟨0, [("A", "1"), ("B", "2")], 1⟩, ⟨1, [("A", "1")], 2⟩, ⟨2, [("A", "2")], 3⟩]

/-- Two-trial study whose sole hyperparameter p occurs in only one trial,
so p is non-global and has no candidate parent. -/
def pair_p : List Trial := [⟨0, [("p", "1")], 1⟩, ⟨1, [], 2⟩]

/-- Four-trial study whose parameter q occurs only in the worst trial, so q
is absent from every elite trial (the elite group keeps the best 3). -/
def c6_study : List Trial :=
  [⟨0, [("a", "1")], 10⟩, ⟨1, [("a", "1")], 9⟩, ⟨2, [("a", "1")], 8⟩,
    ⟨3, [("a", "1"), ("q", "7")], 1⟩]

/-- Three-trial study with a single hyperparameter a, stable across all
trials. -/
def c7_study : List Trial :=
  [⟨0, [("a", "1")], 1⟩, ⟨1, [("a", "1")], 2⟩, ⟨2, [("a", "1")], 3⟩]

/-- Eleven distinct single-letter names. -/
def names11 : List String :=
  ["a", "b", "c", "d", "e", "f", "g", "h", "i", "j", "k"]

theorem elite_trials_length (completed : List Trial) :
    (elite_trials completed).length
      = min completed.length (max 3 (completed.length / 4)) := by
  rw [elite_trials, List.length_take, sorted_by_value_desc, List.length_insertionSort,
    n_elite_trials, Nat.min_comm]

theorem sorted_find?_least {α : Type*} {le : α → α → Prop} {p : α → Bool} :
    ∀ {l : List α}, List.Sorted le l → ∀ {q : α}, l.find? p = some q →
      p q = true ∧ q ∈ l ∧ ∀ x ∈ l, p x = true → q = x ∨ le q x := by
  intro l
  induction l with
  | nil => intro _ q h; simp at h
  | cons a l ih =>
    intro hs q hq
    by_cases hpa : p a = true
    · rw [List.find?_cons_of_pos _ hpa] at hq
      cases hq
      refine ⟨hpa, List.mem_cons_self a l, ?_⟩
      intro x hx _
      rcases List.mem_cons.mp hx with h | h
      · exact Or.inl h.symm
      · exact Or.inr (List.rel_of_sorted_cons hs x h)
    · rw [List.find?_cons_of_neg _ hpa] at hq
      obtain ⟨h1, h2, h3⟩ := ih (List.Sorted.of_cons hs) hq
      refine ⟨h1, List.mem_cons_of_mem a h2, ?_⟩
      intro x hx hpx
      rcases List.mem_cons.mp hx with h | h
      · exact absurd (h ▸ hpx) hpa
      · exact h3 x h hpx

theorem elite_vals_ne_nil_iff (elite : List Trial) (p : String) :
    ImprovedStudyAnalysis.elite_vals elite p ≠ [] ↔ ∃ t ∈ elite, has_param t p = true := by
  rw [Ne, ImprovedStudyAnalysis.elite_vals, List.map_eq_nil_iff, List.filter_eq_nil_iff]
  simp

theorem dedup_const {α : Type*} [DecidableEq α] {a : α} :
    ∀ {l : List α}, l ≠ [] → (∀ b ∈ l, b = a) → l.dedup = [a] := by
  intro l
  induction l with
  | nil => intro h _; exact absurd rfl h
  | cons x t ih =>
    intro _ hall
    have hx : x = a := hall x (List.mem_cons_self x t)
    subst hx
    cases t with
    | nil => simp
    | cons y s =>
      have ht : (y :: s).dedup = [x] :=
        ih (List.cons_ne_nil y s) fun b hb => hall b (List.mem_cons_of_mem x hb)
      have hy : y = x := hall y (by simp)
      have hmem : x ∈ y :: s := List.mem_cons.mpr (Or.inl hy.symm)
      rw [List.dedup_cons_of_mem hmem]
      exact ht

/-- C8 (amended).  The elite trial list has size
min(len(completed), max(3, floor(0.25 * len(completed)))) — the code
truncates 0.25 * n with int(), not round(), and a slice never pads, so the
floor of 3 is only reached when at least 3 completed trials exist.  In
particular the sizes for 5 and 40 completed trials are 3 and 10, as the
spec states. -/
theorem c8_elite_sizing :
    (∀ completed : List Trial,
        (elite_trials completed).length
          = min completed.length (max 3 (completed.length / 4))) ∧
    (elite_trials (mk_trials 5)).length = 3 ∧
    (elite_trials (mk_trials 40)).length = 10 := by
  refine ⟨elite_trials_length, ?_, ?_⟩
  · rw [elite_trials_length]; decide
  · rw [elite_trials_length]; decide

/-- C8 (counterexample).  A study with a single completed trial: the claim's
formula max(3, round(0.25 * 1)) gives 3, but the elite list has length 1 —
the slice cannot return more trials than exist. -/
theorem c8_counterexample :
    (elite_trials (mk_trials 1)).length = 1 ∧
    max 3 (round ((1 : ℚ) * (25 / 100))).toNat = 3 ∧
    (1 : ℕ) ≠ 3 := by
  refine ⟨by rw [elite_trials_length]; decide, ?_, by decide⟩
  norm_num [round_eq]

/-- C10.  For fewer than 3 completed trials the truncating slice returns all
completed trials (as a permutation: they are re-sorted) without error, and
in general the elite-trial count is min(n, max(3, floor(0.25 * n))). -/
theorem c10_elite_small_studies :
    (∀ completed : List Trial, completed.length < 3 →
        (elite_trials completed).Perm completed) ∧
    (∀ completed : List Trial, 0 < completed.length →
        (elite_trials completed).length
          = min completed.length (max 3 (completed.length / 4))) := by
  constructor
  · intro completed h
    have hlen : (sorted_by_value_desc completed).length ≤ n_elite_trials completed.length := by
      rw [sorted_by_value_desc, List.length_insertionSort, n_elite_trials]
      exact le_trans (le_of_lt h) (le_max_left 3 _)
    rw [elite_trials, List.take_of_length_le hlen]
    exact List.perm_insertionSort val_desc completed
  · intro completed _
    exact elite_trials_length completed

/-- C9.  The budget estimator computes multiplier = 10 if volatility > 0.1
else 5, target = n_params * multiplier, and remaining = max(0, target -
n_completed) (study_analysis.py lines 31-33; the same multiplier expression
is inlined in improved_study_analysis.py line 62); in particular n_params =
12 with volatility = 0.03 gives multiplier 5 and target 60, and with 40
completed trials 20 remain. -/
theorem c9_budget_arithmetic :
    (∀ (vol : ℚ) (n c : ℕ),
        StudyAnalysis.dynamic_multiplier vol = (if 1 / 10 < vol then 10 else 5) ∧
        StudyAnalysis.dynamic_target n vol = n * StudyAnalysis.dynamic_multiplier vol ∧
        StudyAnalysis.trials_needed n vol c
          = max 0 ((StudyAnalysis.dynamic_target n vol : ℤ) - (c : ℤ)) ∧
        ImprovedStudyAnalysis.dynamic_target n vol
          = n * (if 1 / 10 < vol then 10 else 5)) ∧
    StudyAnalysis.dynamic_multiplier (3 / 100) = 5 ∧
    StudyAnalysis.dynamic_target 12 (3 / 100) = 60 ∧
    StudyAnalysis.trials_needed 12 (3 / 100) 40 = 20 := by
  have hm : StudyAnalysis.dynamic_multiplier (3 / 100) = 5 := by
    rw [StudyAnalysis.dynamic_multiplier, if_neg (by norm_num)]
  have ht : StudyAnalysis.dynamic_target 12 (3 / 100) = 60 := by
    rw [StudyAnalysis.dynamic_target, hm]
  refine ⟨fun vol n c => ⟨rfl, rfl, rfl, rfl⟩, hm, ht, ?_⟩
  rw [StudyAnalysis.trials_needed, ht]
  decide

/-- C2 (amended).  For every list of completed-trial values with mean ≤ 0
the division std/mean is not taken (the result below does not depend on
std): in study_analysis.py the sentinel is 1.0 and the multiplier is 10 as
the claim states, but in improved_study_analysis.py line 51 the sentinel in
the same position is 0, which makes the multiplier 5. -/
theorem c2_zero_mean_guard (values : List ℚ) (std : ℚ) (h : np_mean values ≤ 0) :
    StudyAnalysis.volatility (np_mean values) std = 1 ∧
    StudyAnalysis.dynamic_multiplier (StudyAnalysis.volatility (np_mean values) std) = 10 ∧
    ImprovedStudyAnalysis.volatility (np_mean values) std = 0 ∧
    ImprovedStudyAnalysis.multiplier
      (ImprovedStudyAnalysis.volatility (np_mean values) std) = 5 := by
  have hm : ¬ 0 < np_mean values := not_lt.mpr h
  have h1 : StudyAnalysis.volatility (np_mean values) std = 1 := by
    rw [StudyAnalysis.volatility, if_neg hm]
  have h2 : ImprovedStudyAnalysis.volatility (np_mean values) std = 0 := by
    rw [ImprovedStudyAnalysis.volatility, if_neg hm]
  refine ⟨h1, ?_, h2, ?_⟩
  · rw [h1, StudyAnalysis.dynamic_multiplier, if_pos (by norm_num)]
  · rw [h2, ImprovedStudyAnalysis.multiplier, if_neg (by norm_num)]

/-- C2 (witness).  The guard evaluated on the concrete value list [0, 0]
with an arbitrary nonzero std. -/
theorem c2_zero_mean_guard_witness :
    np_mean [0, 0] ≤ 0 ∧
    StudyAnalysis.volatility (np_mean [0, 0]) 5 = 1 ∧
    StudyAnalysis.dynamic_multiplier (StudyAnalysis.volatility (np_mean [0, 0]) 5) = 10 ∧
    ImprovedStudyAnalysis.volatility (np_mean [0, 0]) 5 = 0 ∧
    ImprovedStudyAnalysis.multiplier
      (ImprovedStudyAnalysis.volatility (np_mean [0, 0]) 5) = 5 := by
  have h : np_mean [0, 0] ≤ 0 := by norm_num [np_mean]
  exact ⟨h, c2_zero_mean_guard [0, 0] 5 h⟩

/-- C2 (counterexample).  On the value list [0] the trial-budget estimator
of improved_study_analysis.py takes sentinel 0 and multiplier 5, not the
claimed 1.0 and 10. -/
theorem c2_counterexample :
    np_mean [0] ≤ 0 ∧
    ImprovedStudyAnalysis.volatility (np_mean [0]) 3 = 0 ∧
    ImprovedStudyAnalysis.multiplier (ImprovedStudyAnalysis.volatility (np_mean [0]) 3) = 5 ∧
    (0 : ℚ) ≠ 1 ∧ (5 : ℕ) ≠ 10 := by
  have h : np_mean [0] ≤ 0 := by norm_num [np_mean]
  have h2 : ImprovedStudyAnalysis.volatility (np_mean [0]) 3 = 0 := by
    rw [ImprovedStudyAnalysis.volatility, if_neg (not_lt.mpr h)]
  refine ⟨h, h2, ?_, by norm_num, by decide⟩
  rw [h2, ImprovedStudyAnalysis.multiplier, if_neg (by norm_num)]

/-- C3 (amended).  Both scripts sort the completed trials by value
descending regardless of the study's direction, so the elite list is sorted
optimal-first exactly in the MAXIMIZE case; the sort is a permutation of the
completed trials and is sorted under the descending-value relation. -/
theorem c3_sort_ignores_direction (completed : List Trial) :
    sorted_by_value_desc completed = spec_elite_sorted .MAXIMIZE completed ∧
    (sorted_by_value_desc completed).Perm completed ∧
    List.Sorted val_desc (sorted_by_value_desc completed) := by
  refine ⟨rfl, List.perm_insertionSort val_desc completed, ?_⟩
  exact List.sorted_insertionSort val_desc completed

/-- C3 (counterexample).  Two completed trials with values 1 and 2 under a
MINIMIZE study: the code's sort puts the larger value first, while
optimal-first under MINIMIZE puts the smaller value first. -/
theorem c3_counterexample :
    sorted_by_value_desc [⟨0, [], 1⟩, ⟨1, [], 2⟩]
        = [⟨1, [], 2⟩, ⟨0, [], 1⟩] ∧
    spec_elite_sorted .MINIMIZE [⟨0, [], 1⟩, ⟨1, [], 2⟩]
        = [⟨0, [], 1⟩, ⟨1, [], 2⟩] ∧
    sorted_by_value_desc [⟨0, [], 1⟩, ⟨1, [], 2⟩]
        ≠ spec_elite_sorted .MINIMIZE [⟨0, [], 1⟩, ⟨1, [], 2⟩] := by
  refine ⟨by decide, by decide, by decide⟩

/-- C1 (amended).  The elite parameter list is the set of hyperparameter
names sorted by importance descending with ties broken by name DESCENDING —
Python's reverse=True reverses the name component of the tuple key as well —
truncated to max(2, floor(0.25 * n)) names (int(), not round()): the sorted
list is a permutation of the names, its truncation has length min(n, max(2,
floor(n/4))), and at any two positions with equal importance score the
later name is lexicographically at most the earlier one. -/
theorem c1_elite_params_order (imp : List (String × ℚ)) (names : List String) :
    (ImprovedStudyAnalysis.sorted_params imp names).Perm names ∧
    (ImprovedStudyAnalysis.top_params_list imp names).length
      = min names.length (max 2 (names.length / 4)) ∧
    ∀ i j : Fin (ImprovedStudyAnalysis.sorted_params imp names).length, i < j →
      importance_get imp ((ImprovedStudyAnalysis.sorted_params imp names).get i)
        = importance_get imp ((ImprovedStudyAnalysis.sorted_params imp names).get j) →
      py_str_le ((ImprovedStudyAnalysis.sorted_params imp names).get j)
        ((ImprovedStudyAnalysis.sorted_params imp names).get i) := by
  refine ⟨List.perm_insertionSort (imp_desc imp) names, ?_, ?_⟩
  · rw [ImprovedStudyAnalysis.top_params_list, List.length_take,
      ImprovedStudyAnalysis.sorted_params, List.length_insertionSort,
      ImprovedStudyAnalysis.n_top_params, Nat.min_comm]
  · intro i j hij heq
    have hs : List.Sorted (imp_desc imp) (ImprovedStudyAnalysis.sorted_params imp names) :=
      List.sorted_insertionSort (imp_desc imp) names
    have hrel := hs.rel_get_of_lt hij
    rcases hrel with h | ⟨_, h⟩
    · rw [heq] at h
      exact absurd h (lt_irrefl _)
    · exact h

/-- C1 (counterexample).  Two names of equal (zero) importance sort with the
lexicographically smaller name "a" last, not first; and for 11 names the
truncation keeps max(2, int(2.75)) = 2 names, not the claimed
max(2, round(2.75)) = 3. -/
theorem c1_counterexample :
    ImprovedStudyAnalysis.sorted_params [] ["a", "b"] = ["b", "a"] ∧
    importance_get [] "a" = importance_get [] "b" ∧
    py_str_lt "a" "b" ∧
    (ImprovedStudyAnalysis.top_params_list [] names11).length = 2 ∧
    max 2 (round ((names11.length : ℚ) * (25 / 100))).toNat = 3 := by
  refine ⟨by decide, by decide, by decide, by decide, ?_⟩
  have h : (names11.length : ℚ) * (25 / 100) = 11 / 4 := by norm_num [names11]
  have hr : round ((11 : ℚ) / 4) = 3 := by norm_num [round_eq]
  rw [h, hr]
  decide

/-- C4 (amended).  A hyperparameter whose presence mask does not cover all
completed trials and for which no other name passes the qualifying test
keeps the label Global: the code never produces any Conditional label (the
hierarchy dict is initialised to Global and only ever overwritten with
SubOf). -/
theorem c4_no_parent_stays_global (completed : List Trial) (child : String)
    (h1 : (ImprovedStudyAnalysis.presence completed child).card ≠ completed.length)
    (h2 : ∀ p ∈ ImprovedStudyAnalysis.all_param_names completed,
        ImprovedStudyAnalysis.qualifies completed child p = false) :
    ImprovedStudyAnalysis.hierarchy_entry completed child = .Global := by
  have hn : (ImprovedStudyAnalysis.all_param_names completed).find?
      (ImprovedStudyAnalysis.qualifies completed child) = none :=
    List.find?_eq_none.mpr fun x hx => by simp [h2 x hx]
  simp only [ImprovedStudyAnalysis.hierarchy_entry]
  rw [if_neg h1, hn]

/-- C4 (witness).  The sole hyperparameter p of a two-trial study, present
in only one trial: non-global, no qualifying parent, labeled Global. -/
theorem c4_witness :
    (ImprovedStudyAnalysis.presence pair_p "p").card ≠ pair_p.length ∧
    (∀ q ∈ ImprovedStudyAnalysis.all_param_names pair_p,
        ImprovedStudyAnalysis.qualifies pair_p "p" q = false) ∧
    ImprovedStudyAnalysis.hierarchy_entry pair_p "p" = .Global :=
  ⟨by decide, by decide, c4_no_parent_stays_global pair_p "p" (by decide) (by decide)⟩

/-- C4 (counterexample).  In the two-trial study pair_p the name p has a
presence mask that is a proper subset of the completed-trial ids and no
name with a strictly larger superset mask, yet it is labeled Global — the
code has no Conditional label at all, contradicting the claim that such a
name is labeled Conditional and not Global. -/
theorem c4_counterexample :
    ImprovedStudyAnalysis.presence pair_p "p" ⊂ trial_ids pair_p ∧
    (∀ q ∈ ImprovedStudyAnalysis.all_param_names pair_p,
        ImprovedStudyAnalysis.qualifies pair_p "p" q = false) ∧
    ImprovedStudyAnalysis.hierarchy_entry pair_p "p" = HierarchyEntry.Global :=
  ⟨by decide, by decide, by decide⟩

/-- C5.  When some name of the study qualifies as a parent of a non-global
child, the hierarchy records SubOf(q) for the lexicographically least
qualifying name q (all_param_names is sorted lexicographically and the scan
takes the first hit); in particular on the synthetic study
{T0:{A,B}, T1:{A}, T2:{A}} the name B is recorded as SubOf(A) and A stays
Global. -/
theorem c5_first_lexicographic_parent :
    (∀ (completed : List Trial) (child p0 : String),
        (ImprovedStudyAnalysis.presence completed child).card ≠ completed.length →
        p0 ∈ ImprovedStudyAnalysis.all_param_names completed →
        ImprovedStudyAnalysis.qualifies completed child p0 = true →
        ∃ q, ImprovedStudyAnalysis.hierarchy_entry completed child = .SubOf q ∧
          q ∈ ImprovedStudyAnalysis.all_param_names completed ∧
          ImprovedStudyAnalysis.qualifies completed child q = true ∧
          ∀ p ∈ ImprovedStudyAnalysis.all_param_names completed,
            ImprovedStudyAnalysis.qualifies completed child p = true → py_str_le q p) ∧
    ImprovedStudyAnalysis.hierarchy_entry t012 "B" = .SubOf "A" ∧
    ImprovedStudyAnalysis.hierarchy_entry t012 "A" = .Global := by
  refine ⟨?_, by decide, by decide⟩
  intro completed child p0 h1 h2 h3
  have hsome : ((ImprovedStudyAnalysis.all_param_names completed).find?
      (ImprovedStudyAnalysis.qualifies completed child)).isSome = true :=
    List.find?_isSome.mpr ⟨p0, h2, h3⟩
  obtain ⟨q, hq⟩ := Option.isSome_iff_exists.mp hsome
  have hsorted : List.Sorted py_str_le (ImprovedStudyAnalysis.all_param_names completed) :=
    List.sorted_insertionSort py_str_le _
  obtain ⟨hpq, hmem, hleast⟩ := sorted_find?_least hsorted hq
  refine ⟨q, ?_, hmem, hpq, ?_⟩
  · simp only [ImprovedStudyAnalysis.hierarchy_entry]
    rw [if_neg h1, hq]
  · intro p hp hqp
    rcases hleast p hp hqp with h | h
    · cases h
      exact py_str_le_refl q
    · exact h

/-- C6 (amended).  In improved_study_analysis.py a hyperparameter is stable
iff it is present in at least one elite trial and its distinct stringified
values over the elite trials where it is present number exactly 1 — as the
claim states; but in study_analysis.py the values are collected from every
elite trial with absent parameters stringified as "None", so a parameter
absent from every (nonempty) elite group passes the stability check. -/
theorem c6_stability_definition :
    (∀ (elite : List Trial) (p : String),
        ImprovedStudyAnalysis.is_stable elite p = true ↔
          (∃ t ∈ elite, has_param t p = true) ∧
            (ImprovedStudyAnalysis.elite_vals elite p).dedup.length = 1) ∧
    (∀ (elite : List Trial) (p : String), elite ≠ [] →
        (∀ t ∈ elite, has_param t p = false) →
        StudyAnalysis.stable elite p = true) := by
  constructor
  · intro elite p
    constructor
    · intro h
      rw [ImprovedStudyAnalysis.is_stable, Bool.and_eq_true] at h
      obtain ⟨h1, h2⟩ := h
      have hne : ImprovedStudyAnalysis.elite_vals elite p ≠ [] := by
        intro hnil
        rw [hnil] at h1
        simp at h1
      exact ⟨(elite_vals_ne_nil_iff elite p).mp hne, by simpa using h2⟩
    · intro h
      obtain ⟨h1, h2⟩ := h
      have hne := (elite_vals_ne_nil_iff elite p).mpr h1
      rw [ImprovedStudyAnalysis.is_stable, Bool.and_eq_true]
      constructor
      · cases hl : ImprovedStudyAnalysis.elite_vals elite p with
        | nil => exact absurd hl hne
        | cons a l => simp [hl]
      · simpa using h2
  · intro elite p hne hall
    have hmem : ∀ s ∈ StudyAnalysis.vals_in_elite elite p, s = "None" := by
      intro s hs
      rw [StudyAnalysis.vals_in_elite] at hs
      obtain ⟨t, ht, rfl⟩ := List.mem_map.mp hs
      have hq := hall t ht
      rw [has_param] at hq
      rw [str_get]
      cases hl : List.lookup p t.params with
      | none => rfl
      | some v =>
        rw [hl] at hq
        simp at hq
    have hvne : StudyAnalysis.vals_in_elite elite p ≠ [] := by
      rw [StudyAnalysis.vals_in_elite, Ne, List.map_eq_nil_iff]
      exact hne
    have hd : (StudyAnalysis.vals_in_elite elite p).dedup = ["None"] :=
      dedup_const hvne hmem
    rw [StudyAnalysis.stable, hd]
    rfl

/-- C6 (counterexample).  In the four-trial study c6_study the parameter q
is absent from every elite trial, yet study_analysis.py counts it toward
stable_count (its collected values are three copies of "None"). -/
theorem c6_counterexample :
    (∀ t ∈ elite_trials c6_study, has_param t "q" = false) ∧
    StudyAnalysis.convergence_count (elite_trials c6_study) ["q"] = 1 :=
  ⟨by decide, by decide⟩

/-- C7 (amended).  The convergence ratio divides stable_count by
n_top_params = max(2, floor(0.25 * n_params)), which is at least 2 for every
input (so the division is well-defined) and equals the length of the elite
parameter list exactly when n_params ≥ 2 (for a study with fewer than 2
hyperparameter names the list is shorter than the divisor); the reported
status is HIGH iff the ratio is at least 0.66. -/
theorem c7_ratio_denominator (imp : List (String × ℚ)) (completed : List Trial) :
    2 ≤ ImprovedStudyAnalysis.n_top_params
        (ImprovedStudyAnalysis.all_param_names completed).length ∧
    (2 ≤ (ImprovedStudyAnalysis.all_param_names completed).length →
      (ImprovedStudyAnalysis.top_params_list imp
          (ImprovedStudyAnalysis.all_param_names completed)).length
        = ImprovedStudyAnalysis.n_top_params
            (ImprovedStudyAnalysis.all_param_names completed).length) ∧
    (ImprovedStudyAnalysis.convergence_status imp completed = "HIGH" ↔
      (66 : ℚ) / 100 ≤ ImprovedStudyAnalysis.convergence_ratio imp completed) := by
  refine ⟨le_max_left 2 _, ?_, ?_⟩
  · intro h
    rw [ImprovedStudyAnalysis.top_params_list, List.length_take,
      ImprovedStudyAnalysis.sorted_params, List.length_insertionSort,
      ImprovedStudyAnalysis.n_top_params]
    exact Nat.min_eq_left (max_le h (Nat.div_le_self _ 4))
  · by_cases h : (66 : ℚ) / 100 ≤ ImprovedStudyAnalysis.convergence_ratio imp completed
    · rw [ImprovedStudyAnalysis.convergence_status, if_pos h]
      exact ⟨fun _ => h, fun _ => rfl⟩
    · rw [ImprovedStudyAnalysis.convergence_status, if_neg h]
      exact ⟨fun hh => absurd hh (by decide), fun hh => absurd hh h⟩

/-- C7 (counterexample).  A single-hyperparameter study: the elite parameter
list has length 1, but the code divides the stable count by n_top_params =
2, giving ratio 1/2 instead of the claimed stable_count/|elite_params| =
1/1; the claimed "total ≥ 2" also fails for |elite_params| = 1. -/
theorem c7_counterexample :
    (ImprovedStudyAnalysis.top_params_list []
        (ImprovedStudyAnalysis.all_param_names c7_study)).length = 1 ∧
    ImprovedStudyAnalysis.convergence_ratio [] c7_study = 1 / 2 ∧
    ((1 : ℚ) / 2 ≠ 1 / 1) := by
  refine ⟨by decide, ?_, by norm_num⟩
  have hc : ImprovedStudyAnalysis.convergence_count (elite_trials c7_study)
      (ImprovedStudyAnalysis.top_params_list []
        (ImprovedStudyAnalysis.all_param_names c7_study)) = 1 := by decide
  have hn : ImprovedStudyAnalysis.n_top_params
      (ImprovedStudyAnalysis.all_param_names c7_study).length = 2 := by decide
  rw [ImprovedStudyAnalysis.convergence_ratio, hc, hn]
  norm_num

end Pareto
